import Mathlib

/-!
Shallow embedding of the wasl compiler (Rust) core pipeline:
scanner (src/frontend/scanner.rs), parser (src/frontend/parser.rs),
emitter (src/codegen/emitter.rs) and the instruction rendering layer
(src/codegen/instructions.rs).

Rust mutable state is threaded explicitly.  The scanner's `MultiPeek`
iterator is modelled by the remaining character list together with an
explicit peek cursor where the source advances it.  Loops that the Rust
code can fail to exit (an unterminated string literal or line comment
exhausts the iterator and `advance` returns `None` forever) are modelled
by an `Option`/`diverged` outcome; `Vec` index panics (`remove(0)` on an
empty vector, `unwrap` on a failed integer parse) are modelled by a
`panicked` outcome.
-/

namespace Wasl

/-- `Lexeme` from scanner.rs.  Constructor names follow the Rust enum;
`def`, `for`, `true`, `false` are Lean keywords so they get a `Kw` suffix. -/
inductive Lexeme where
  | leftParen | rightParen | leftBrace | rightBrace | leftBracket | rightBracket
  | comma | dot | minus | plus | colon | slash | star
  | bang | bangEqual | equal | doubleEqual
  | greater | greaterEqual | less | lessEqual
  | identifier (s : String)
  | stringLiteral (s : String)
  | numberLiteral (n : Int)
  | and
  | mapKey (s : String)
  | falseKw | forKw | cond | defKw | defn | nil | or | print | trueKw | main
  | comment | whitespace | eof
  deriving DecidableEq, Repr

/-- `Position` from scanner.rs: 1-indexed line and column. -/
structure Position where
  line : Nat
  column : Nat
  deriving DecidableEq, Repr

def Position.reset : Position := ⟨1, 1⟩

def Position.incrementColumn (p : Position) : Position := ⟨p.line, p.column + 1⟩

def Position.nextLine (p : Position) : Position := ⟨p.line + 1, 1⟩

/-- `Token` from scanner.rs. -/
structure Token where
  lexeme : Lexeme
  position : Position
  deriving DecidableEq, Repr

def isWhitespaceChar (c : Char) : Bool :=
  c = ' ' ∨ c = '\r' ∨ c = '\t' ∨ c = '\n'

def isDigit (c : Char) : Bool := '0' ≤ c ∧ c ≤ '9'

def isAlpha (c : Char) : Bool :=
  ('a' ≤ c ∧ c ≤ 'z') ∨ ('A' ≤ c ∧ c ≤ 'Z') ∨ c = '_'

/-- `ScanError` from scanner.rs. -/
inductive ScanError where
  | unknownCharacter (p : Position) (text : String)
  deriving DecidableEq, Repr

/-- Scanner state: the remaining source characters (the `MultiPeek<Chars>`
iterator), `current_string` (as a character list, pushed at the back) and
`current_position`. -/
structure ScanState where
  chars : List Char
  currentString : List Char
  currentPosition : Position
  deriving DecidableEq, Repr

/-- `Scanner::new`. -/
def Scanner.new (text : String) : ScanState :=
  ⟨text.data, [], Position.reset⟩

/-- Position update performed by `Scanner::advance` for a consumed character. -/
def updatePos (c : Char) (p : Position) : Position :=
  if c = '\n' then p.nextLine else p.incrementColumn

/-- `Scanner::advance`: consume one character, push it onto `current_string`
and update the position; on an exhausted source return `none` and leave the
state unchanged. -/
def advance (s : ScanState) : Option Char × ScanState :=
  match s.chars with
  | [] => (none, s)
  | c :: rest =>
    (some c, ⟨rest, s.currentString ++ [c], updatePos c s.currentPosition⟩)

/-- `Scanner::peek_match`: if the next character equals `ch`, consume it
directly from the iterator (`self.source.next()`), bypassing `advance` —
so neither `current_string` nor the position is updated. -/
def peekMatch (ch : Char) (s : ScanState) : Bool × ScanState :=
  if s.chars.head? = some ch then (true, { s with chars := s.chars.tail })
  else (false, s)

/-- Result of one `Scanner::scan_token` call.  `diverged` marks the inputs on
which the Rust loop never terminates; `panicked` marks a Rust panic
(`parse().unwrap()` failing in `make_digit`). -/
inductive ScanResult where
  | ok (t : Token) (s : ScanState)
  | err (e : ScanError)
  | diverged
  | panicked
  deriving DecidableEq, Repr

/-- `Scanner::make_token`: the token carries the *current* position, i.e. the
position reached after the token's characters were consumed via `advance`. -/
def makeToken (s : ScanState) (l : Lexeme) : ScanResult :=
  .ok ⟨l, s.currentPosition⟩ s

/-- Loop body of `Scanner::advance_until_newline`:
`loop { if let Some('\n') = self.advance() { break } }`.
On an exhausted source `advance` returns `None` forever, so the Rust loop
never exits: that case is `none`. -/
def advanceUntilNewlineLoop : List Char → List Char → Position →
    Option (List Char × List Char × Position)
  | [], _, _ => none
  | c :: rest, cur, pos =>
    if c = '\n' then some (rest, cur ++ [c], updatePos c pos)
    else advanceUntilNewlineLoop rest (cur ++ [c]) (updatePos c pos)

def advanceUntilNewline (s : ScanState) : Option ScanState :=
  match advanceUntilNewlineLoop s.chars s.currentString s.currentPosition with
  | none => none
  | some (cs, cur, pos) => some ⟨cs, cur, pos⟩

/-- Loop of `Scanner::make_string`:
`loop { self.advance(); if let Some('"') = self.source.peek() { break } }`.
If the source is exhausted before a closing quote is peeked, `advance`
returns `None` forever and the loop never exits: `none`. -/
def makeStringLoop : List Char → List Char → Position →
    Option (List Char × List Char × Position)
  | [], _, _ => none
  | c :: rest, cur, pos =>
    let cur' := cur ++ [c]
    let pos' := updatePos c pos
    if rest.head? = some '"' then some (rest, cur', pos')
    else makeStringLoop rest cur' pos'

/-- `Scanner::make_string`: pop the opening quote from `current_string`, run
the loop, then skip the closing quote with a bare `self.source.next()`
(no position or `current_string` update). -/
def makeString (s : ScanState) : ScanResult :=
  let cur0 := s.currentString.dropLast
  match makeStringLoop s.chars cur0 s.currentPosition with
  | none => .diverged
  | some (cs, cur, pos) =>
    let s' : ScanState := ⟨cs.tail, cur, pos⟩
    makeToken s' (.stringLiteral (String.mk cur))

/-- Outcome of one peek-walk of the `make_digit` loop. -/
inductive DigitStep where
  | breakLoop
  | consumeDot
  | consumeDigit
  deriving DecidableEq, Repr

/-- The `MultiPeek` walk inside `Scanner::make_digit`'s loop, starting at the
current peek cursor.  A `'.'` (with `decimal_count ≠ 0`) followed by a digit
triggers an `advance` (consuming the *head* character and resetting the
cursor); a `'.'` not followed by a digit leaves the cursor advanced past both
peeked characters and the loop continues; a digit at the cursor triggers an
`advance`; anything else breaks the loop. -/
def digitPeekWalk : List Char → Nat → DigitStep
  | [], _ => .breakLoop
  | c :: rest, decCount =>
    if c = '.' ∧ decCount ≠ 0 then
      match rest with
      | [] => .breakLoop
      | r0 :: rest' =>
        if isDigit r0 then .consumeDot else digitPeekWalk rest' decCount
    else if isDigit c then .consumeDigit
    else .breakLoop

/-- The loop of `Scanner::make_digit`, with `decimal_count` threaded.  Each
`advance` consumes the head character and restarts the peek walk from the new
head. -/
def makeDigitLoop : List Char → List Char → Position → Nat →
    List Char × List Char × Position
  | [], cur, pos, _ => ([], cur, pos)
  | c :: rest, cur, pos, decCount =>
    match digitPeekWalk (c :: rest) decCount with
    | .breakLoop => (c :: rest, cur, pos)
    | .consumeDot => makeDigitLoop rest (cur ++ [c]) (updatePos c pos) (decCount - 1)
    | .consumeDigit => makeDigitLoop rest (cur ++ [c]) (updatePos c pos) decCount

/-- `str::parse::<i64>` on the scanner's `current_string`: succeeds on a
nonempty all-digit string whose value fits in an i64, otherwise errors (which
`make_digit` unwraps into a panic). -/
def parseI64 (cs : List Char) : Option Int :=
  if cs ≠ [] ∧ cs.all (fun c => isDigit c) then
    let v := cs.foldl (fun acc c => acc * 10 + (c.toNat - 48)) 0
    if v ≤ 9223372036854775807 then some (Int.ofNat v) else none
  else none

/-- `Scanner::make_digit` (entered after the first digit was consumed, with
`decimal_count = 1` and a fresh peek cursor). -/
def makeDigit (s : ScanState) : ScanResult :=
  let r := makeDigitLoop s.chars s.currentString s.currentPosition 1
  match r with
  | (cs, cur, pos) =>
    match parseI64 cur with
    | some n => makeToken ⟨cs, cur, pos⟩ (.numberLiteral n)
    | none => .panicked

/-- Loop of `Scanner::scan_word`: consume while alphanumeric/underscore. -/
def scanWordLoop : List Char → List Char → Position →
    List Char × List Char × Position
  | [], cur, pos => ([], cur, pos)
  | c :: rest, cur, pos =>
    if isAlpha c ∨ isDigit c then scanWordLoop rest (cur ++ [c]) (updatePos c pos)
    else (c :: rest, cur, pos)

def scanWord (s : ScanState) : ScanState :=
  match scanWordLoop s.chars s.currentString s.currentPosition with
  | (cs, cur, pos) => ⟨cs, cur, pos⟩

/-- `check_keyword` from scanner.rs: compare `input_string[index..]` with
`token_string` (ASCII source text, so character indexing models the Rust byte
slice). -/
def checkKeyword (input : List Char) (index : Nat) (tokenString : List Char)
    (token : Lexeme) : Lexeme :=
  if input.drop index = tokenString then token
  else .identifier (String.mk input)

/-- `Scanner::check_identifier_type`: first-character dispatch over
`current_string` (successive `MultiPeek` peeks read characters 0, 1, 2). -/
def checkIdentifierType (cur : List Char) : Lexeme :=
  match cur.head? with
  | none => .identifier (String.mk cur)
  | some c0 =>
    if c0 = 'a' then checkKeyword cur 1 ['n', 'd'] .and
    else if c0 = 'f' ∧ cur.length > 1 then
      match cur.get? 1 with
      | some 'a' => checkKeyword cur 2 ['l', 's', 'e'] .falseKw
      | some 'o' => checkKeyword cur 2 ['r'] .forKw
      | _ => .identifier (String.mk cur)
    else if c0 = 'c' then checkKeyword cur 1 ['o', 'n', 'd'] .cond
    else if c0 = 'd' ∧ cur.length > 1 then
      match cur.get? 1 with
      | some 'e' =>
        if cur.length > 2 then
          match cur.get? 2 with
          | some 'f' => checkKeyword cur 3 ['n'] .defn
          | _ => .identifier (String.mk cur)
        else checkKeyword cur 2 ['f'] .defKw
      | _ => .identifier (String.mk cur)
    else if c0 = 'm' then checkKeyword cur 1 ['a', 'i', 'n'] .main
    else if c0 = 'n' then checkKeyword cur 1 ['i', 'l'] .nil
    else if c0 = 'o' then checkKeyword cur 1 ['r'] .or
    else if c0 = 'p' then checkKeyword cur 1 ['r', 'i', 'n', 't'] .print
    else if c0 = 't' then checkKeyword cur 1 ['r', 'u', 'e'] .trueKw
    else .identifier (String.mk cur)

/-- `Scanner::make_identifier`. -/
def makeIdentifier (s : ScanState) : ScanResult :=
  let s' := scanWord s
  makeToken s' (checkIdentifierType s'.currentString)

/-- `Scanner::make_map_key`: pop the `':'` from `current_string`, then scan
the word. -/
def makeMapKey (s : ScanState) : ScanResult :=
  let s0 := { s with currentString := s.currentString.dropLast }
  let s' := scanWord s0
  makeToken s' (.mapKey (String.mk s'.currentString))

/-- The `Some(c)` arms of `Scanner::scan_token`'s match, in source order,
dispatching on the consumed character `c` with the post-`advance` state
`s1`. -/
def scanTokenChar (c : Char) (s1 : ScanState) : ScanResult :=
  match c with
  | '(' => makeToken s1 .leftParen
  | ')' => makeToken s1 .rightParen
  | '{' => makeToken s1 .leftBrace
  | '}' => makeToken s1 .rightBrace
  | '[' => makeToken s1 .leftBracket
  | ']' => makeToken s1 .rightBracket
  | ':' =>
    (match peekMatch ' ' s1 with
     | (true, s2) => makeToken s2 .colon
     | (false, s2) => makeMapKey s2)
  | ',' => makeToken s1 .comma
  | '.' => makeToken s1 .dot
  | '-' => makeToken s1 .minus
  | '+' => makeToken s1 .plus
  | '*' => makeToken s1 .star
  | '!' =>
    (match peekMatch '=' s1 with
     | (true, s2) => makeToken s2 .bangEqual
     | (false, s2) => makeToken s2 .bang)
  | '=' =>
    (match peekMatch '=' s1 with
     | (true, s2) => makeToken s2 .doubleEqual
     | (false, s2) => makeToken s2 .equal)
  | '>' =>
    (match peekMatch '=' s1 with
     | (true, s2) => makeToken s2 .greaterEqual
     | (false, s2) => makeToken s2 .greater)
  | '<' =>
    (match peekMatch '=' s1 with
     | (true, s2) => makeToken s2 .lessEqual
     | (false, s2) => makeToken s2 .less)
  | '/' =>
    (match peekMatch '/' s1 with
     | (true, s2) =>
       -- the Comment token is built before `advance_until_newline` runs
       (match advanceUntilNewline s2 with
        | none => .diverged
        | some s3 => .ok ⟨.comment, s2.currentPosition⟩ s3)
     | (false, s2) => makeToken s2 .slash)
  | '"' => makeString s1
  | c =>
    if isWhitespaceChar c then makeToken s1 .whitespace
    else if isDigit c then makeDigit s1
    else if isAlpha c then makeIdentifier s1
    else .err (.unknownCharacter s1.currentPosition (String.mk s1.currentString))

/-- `Scanner::scan_token`: clear `current_string`, `advance` once and dispatch
on the consumed character. -/
def scanToken (s : ScanState) : ScanResult :=
  let s0 := { s with currentString := ([] : List Char) }
  match advance s0 with
  | (none, s1) => makeToken s1 .eof
  | (some c, s1) => scanTokenChar c s1

/-- Result of `scan_into_peekable`. -/
inductive ScanListResult where
  | ok (ts : List Token)
  | err (e : ScanError)
  | diverged
  | panicked
  deriving DecidableEq, Repr

/-- Loop of `scan_into_peekable`: collect tokens, filtering `Whitespace` and
`Comment` and stopping (without pushing) at `EOF`.  Each `scan_token` call on
a nonempty source consumes at least one character, so `source.length + 1`
fuel always suffices; the fuel-exhaustion case is unreachable from
`scanIntoPeekable`. -/
def scanTokens : Nat → ScanState → ScanListResult
  | 0, _ => .diverged
  | fuel + 1, s =>
    match scanToken s with
    | .ok t s' =>
      match t.lexeme with
      | .whitespace => scanTokens fuel s'
      | .comment => scanTokens fuel s'
      | .eof => .ok []
      | _ =>
        match scanTokens fuel s' with
        | .ok ts => .ok (t :: ts)
        | r => r
    | .err e => .err e
    | .diverged => .diverged
    | .panicked => .panicked

/-- `scan_into_peekable` from scanner.rs. -/
def scanIntoPeekable (source : String) : ScanListResult :=
  scanTokens (source.length + 1) (Scanner.new source)

/-! ## AST (src/frontend/ast.rs)

`ast.rs` declares `FunctionDetails.body`/`MainDetails.body` as `Box<Node>`,
but the parser constructs them with a `Vec<Node>` of body forms and the
emitter walks them as `&Vec<Node>`; the embedding follows the parser and
emitter and uses a list of nodes.  `MapItem {key, value}` is embedded as a
pair. -/

/-- `ConstantLiteral` from ast.rs (the scanner produces i64 literals; the
numeric value is embedded as `Int`). -/
inductive ConstantLiteral where
  | integerLiteral (n : Int)
  | stringLiteral (s : String)
  deriving DecidableEq, Repr

/-- `Node` from ast.rs.  `Variable` is spelled `var` (`variable` is a Lean
keyword); `Def(VariableInformation)` is spelled `defNode`. -/
inductive Node where
  | null
  | main (args : List Node) (body : List Node)
  | defNode (name : Node) (value : Node)
  | function (name : Node) (args : List Node) (body : List Node)
  | constant (c : ConstantLiteral)
  | keyword (token : Lexeme)
  | var (name : String)
  | map (items : List (String × Node))
  | vector (items : List Node)
  | list (head : Node) (rest : List Node)
  deriving Repr

/-! ## Parser (src/frontend/parser.rs) -/

/-- `ParseError` from parser.rs. -/
inductive ParseError where
  | scanErr (e : ScanError)
  | unexpectedEndOfFile
  | unexpectedToken (p : Position) (l : Lexeme)
  | invalidFunctionName (p : Position) (l : Lexeme)
  deriving DecidableEq, Repr

/-- Result of a parser routine: the parsed value together with the remaining
token stream, a `ParseError`, a Rust panic (`Vec::remove(0)` on an empty
vector in `parse_seq_list`), or fuel exhaustion.  The parser's loops always
terminate; the fuel passed in by `Parser.parse` is large enough that
`diverged` is never reached from it. -/
inductive PRes (α : Type) where
  | ok (a : α) (rest : List Token)
  | err (e : ParseError)
  | panicked
  | diverged
  deriving Repr

/-- `Parser::parse_item`: token → node conversion (total; every Rust arm
returns `Ok`). -/
def parseItem (item : Token) : Node :=
  match item.lexeme with
  | .numberLiteral n => .constant (.integerLiteral n)
  | .stringLiteral s => .constant (.stringLiteral s)
  | .plus => .keyword item.lexeme
  | .minus => .keyword item.lexeme
  | .and => .keyword item.lexeme
  | .or => .keyword item.lexeme
  | .print => .keyword item.lexeme
  | .identifier name => .var name
  | .main => .var "main"
  | _ => .null

/-- Loop of `Parser::parse_vector`: consume until `]` (or exhaustion),
converting each token via `parse_item`; returns the items and the remaining
stream. -/
def parseVectorLoop : List Token → List Node × List Token
  | [] => ([], [])
  | t :: rest =>
    if t.lexeme = .rightBracket then ([], rest)
    else
      match parseVectorLoop rest with
      | (ns, r) => (parseItem t :: ns, r)

/-- `Parser::parse_vector`. -/
def parseVector (ts : List Token) : Node × List Token :=
  match parseVectorLoop ts with
  | (ns, r) => (.vector ns, r)

/-- `Parser::parse_map`: a `MapKey` consumes one following token as its value
(erroring with `UnexpectedEndOfFile` if the stream is exhausted); `}` breaks;
any other token becomes an entry with key `""`. -/
def parseMap : List Token → PRes Node
  | [] => .ok (.map []) []
  | t :: rest =>
    match t.lexeme with
    | .mapKey name =>
      (match rest with
       | [] => .err .unexpectedEndOfFile
       | v :: rest' =>
         match parseMap rest' with
         | .ok (.map items) r => .ok (.map ((name, parseItem v) :: items)) r
         | r => r)
    | .rightBrace => .ok (.map []) rest
    | _ =>
      match parseMap rest with
      | .ok (.map items) r => .ok (.map (("", parseItem t) :: items)) r
      | r => r

/-- `Parser::build_fake_main_node`. -/
def buildFakeMainNode : Node := .main [] []

mutual

/-- `Parser::parse_token_stream`: dispatch on the consumed opening token. -/
def parseTokenStream : Nat → List Token → PRes Node
  | 0, _ => .diverged
  | _ + 1, [] => .err .unexpectedEndOfFile
  | fuel + 1, t :: rest =>
    match t.lexeme with
    | .leftParen => parseList fuel rest
    | .leftBrace => parseMap rest
    | .leftBracket =>
      (match parseVector rest with
       | (n, r) => .ok n r)
    | l => .err (.unexpectedToken t.position l)

/-- `Parser::parse_list`: peek for `defn`, else a plain sequence list. -/
def parseList : Nat → List Token → PRes Node
  | 0, _ => .diverged
  | fuel + 1, ts =>
    match ts.head? with
    | some t =>
      if t.lexeme = .defn then parseFunctionDefinition fuel ts
      else parseSeqList fuel ts
    | none => parseSeqList fuel ts

/-- `Parser::parse_function_definition`: dump `defn`, read the name (`main`
gives the sentinel Main node, an identifier gives its item conversion,
anything else is `InvalidFunctionName`), require a `[` parameter vector, then
parse body forms. -/
def parseFunctionDefinition : Nat → List Token → PRes Node
  | 0, _ => .diverged
  | fuel + 1, ts =>
    match ts.tail with
    | [] => .err .unexpectedEndOfFile
    | nameTok :: ts1 =>
      let nameE : Except ParseError Node :=
        match nameTok.lexeme with
        | .main => .ok buildFakeMainNode
        | .identifier _ => .ok (parseItem nameTok)
        | l => .error (.invalidFunctionName nameTok.position l)
      match nameE with
      | .error e => .err e
      | .ok name =>
        match ts1 with
        | [] => .err .unexpectedEndOfFile
        | t2 :: ts2 =>
          if t2.lexeme = .leftBracket then
            match parseVector ts2 with
            | (nextElement, ts3) =>
              let args := match nextElement with
                | .vector arguments => arguments
                | _ => []
              match parseFunctionBody fuel ts3 with
              | .ok body ts4 =>
                (match name with
                 | .main _ _ => .ok (.main args body) ts4
                 | _ => .ok (.function name args body) ts4)
              | .err e => .err e
              | .panicked => .panicked
              | .diverged => .diverged
          else .err (.unexpectedToken t2.position t2.lexeme)

/-- `Parser::parse_function_body`: while the next token is `(`, consume it
and parse a sequence list as one body form; afterwards skip one trailing
token (the closing `)` of the `defn` form). -/
def parseFunctionBody : Nat → List Token → PRes (List Node)
  | 0, _ => .diverged
  | fuel + 1, ts =>
    match ts.head? with
    | some t =>
      if t.lexeme = .leftParen then
        match parseSeqList fuel ts.tail with
        | .ok n r =>
          (match parseFunctionBody fuel r with
           | .ok ns r' => .ok (n :: ns) r'
           | .err e => .err e
           | .panicked => .panicked
           | .diverged => .diverged)
        | .err e => .err e
        | .panicked => .panicked
        | .diverged => .diverged
      else .ok [] ts.tail
    | none => .ok [] ts.tail

/-- `Parser::parse_seq_list`: run the accumulation loop, then
`list.remove(0)` — which panics when no item was accumulated. -/
def parseSeqList : Nat → List Token → PRes Node
  | 0, _ => .diverged
  | fuel + 1, ts =>
    match parseSeqItems fuel ts with
    | .ok items rest =>
      (match items with
       | [] => .panicked
       | top :: restItems => .ok (.list top restItems) rest)
    | .err e => .err e
    | .panicked => .panicked
    | .diverged => .diverged

/-- The accumulation loop of `parse_seq_list`: `)` breaks, `(` recurses into
a nested sequence list, anything else is item-converted; exhaustion exits the
loop. -/
def parseSeqItems : Nat → List Token → PRes (List Node)
  | 0, _ => .diverged
  | fuel + 1, ts =>
    match ts with
    | [] => .ok [] []
    | t :: rest =>
      if t.lexeme = .rightParen then .ok [] rest
      else if t.lexeme = .leftParen then
        match parseSeqList fuel rest with
        | .ok n r =>
          (match parseSeqItems fuel r with
           | .ok ns r' => .ok (n :: ns) r'
           | .err e => .err e
           | .panicked => .panicked
           | .diverged => .diverged)
        | .err e => .err e
        | .panicked => .panicked
        | .diverged => .diverged
      else
        match parseSeqItems fuel rest with
        | .ok ns r' => .ok (parseItem t :: ns) r'
        | .err e => .err e
        | .panicked => .panicked
        | .diverged => .diverged

end

/-- Outcome of `Parser::parse` (scanner divergence/panic propagates into the
pipeline result). -/
inductive ParseOutcome where
  | ok (nodes : List Node)
  | err (e : ParseError)
  | panicked
  | diverged

/-- Top-level loop of `Parser::parse`:
`while (tokens.peek()?).lexeme != Lexeme::EOF { ... }`.
`peek()` on an exhausted stream returns `None`, which `?` converts into
`ParseError::UnexpectedEndOfFile`. -/
def parseLoop : Nat → List Token → List Node → ParseOutcome
  | 0, _, _ => .diverged
  | fuel + 1, ts, acc =>
    match ts with
    | [] => .err .unexpectedEndOfFile
    | t :: _ =>
      if t.lexeme = .eof then .ok acc
      else
        match parseTokenStream (fuel + 1) ts with
        | .ok n rest => parseLoop fuel rest (acc ++ [n])
        | .err e => .err e
        | .panicked => .panicked
        | .diverged => .diverged

/-- `Parser::parse`: scan the whole source, then run the top-level loop.
The fuel bound `5 * tokens.length + 10` exceeds the number of parser calls
(each consumed token accounts for at most a constant number of calls), so
`diverged` is never produced by the parser itself. -/
def Parser.parse (text : String) : ParseOutcome :=
  match scanIntoPeekable text with
  | .ok tokens => parseLoop (5 * tokens.length + 10) tokens []
  | .err e => .err (.scanErr e)
  | .diverged => .diverged
  | .panicked => .panicked

/-! ## Instruction rendering (src/codegen/instructions.rs) -/

/-- `Opcodes` from instructions.rs (i32 operands embedded as `Int`). -/
inductive Opcodes where
  | getLocal
  | add
  | subtract
  | load
  | store (address : Int) (value : Int)
  | const (constant : Int)
  | drop
  deriving DecidableEq, Repr

/-- `WASIImports` from instructions.rs. -/
inductive WASIImports where
  | fdWrite
  deriving DecidableEq, Repr

/-- `SysCalls` from instructions.rs. -/
inductive SysCalls where
  | write (fileDescriptor iovPtr iovLen numWritten : Opcodes)
  deriving DecidableEq, Repr

/-- `OpData` from instructions.rs: a data-segment descriptor. -/
structure OpData where
  location : Opcodes
  data : String
  deriving DecidableEq, Repr

/-- `Display for Types`: `(param $pN i32)` / `(result i32)`; `Types` itself
is just these two textual shapes, rendered here directly from the parameter
index. -/
def i32paramToString (n : Nat) : String :=
  "(param $p" ++ toString n ++ " i32)"

def i32resultString : String := "(result i32)"

/-- `Display for Opcodes`.  Note the missing closing parenthesis on `Add` and
`Subtract` in the source: they open a scope that the emitter closes later. -/
def opcodesToString : Opcodes → String
  | .getLocal => "(get_local)"
  | .add => "(i32.add"
  | .subtract => "(i32.sub"
  | .load => "(i32.load32_s)"
  | .store address value =>
    -- `write!(f, "(i32.store {} {})", Const(address), Const(value))`
    "(i32.store (i32.const " ++ toString address ++ ") (i32.const "
      ++ toString value ++ "))"
  | .const constant => "(i32.const " ++ toString constant ++ ")"
  | .drop => "drop"

/-- Rust `{:?}` (Debug) escaping of one character inside a string literal,
for the characters this compiler's ASCII source text can put into a data
segment (quote, backslash, newline, carriage return, tab; other ASCII
printable characters render as themselves). -/
def rustDebugEscapeChar (c : Char) : String :=
  if c = '"' then "\\\""
  else if c = '\\' then "\\\\"
  else if c = '\n' then "\\n"
  else if c = '\r' then "\\r"
  else if c = '\t' then "\\t"
  else String.singleton c

/-- Rust `{:?}` (Debug) rendering of a `String`: quoted and escaped. -/
def rustDebugString (s : String) : String :=
  "\"" ++ String.join (s.data.map rustDebugEscapeChar) ++ "\""

/-- `Display for OpData`: `(data {location} {data:?})`. -/
def opDataToString (d : OpData) : String :=
  "(data " ++ opcodesToString d.location ++ " " ++ rustDebugString d.data ++ ")"

/-- `Display for SysCalls`. -/
def sysCallsToString : SysCalls → String
  | .write fileDescriptor iovPtr iovLen numWritten =>
    "(call $fd_write " ++ opcodesToString fileDescriptor ++ " "
      ++ opcodesToString iovPtr ++ " " ++ opcodesToString iovLen ++ " "
      ++ opcodesToString numWritten ++ ")"

/-- `Display for WASIImports`. -/
def wasiImportsToString : WASIImports → String
  | .fdWrite =>
    "(import \"wasi_unstable\" \"fd_write\" (func $fd_write (param i32 i32 i32 i32) "
      ++ i32resultString ++ "))"

/-! ## Emitter (src/codegen/emitter.rs) -/

/-- The `Emitter`'s mutable fields: accumulated imports and data segments. -/
structure EmitState where
  imports : List WASIImports
  data : List OpData
  deriving DecidableEq, Repr

/-- `Emitter::new`. -/
def Emitter.new : EmitState := ⟨[], []⟩

/-- `Emitter::emit_string_bytes`: register a data segment at the fixed base
offset 8 whose bytes are the string plus a trailing newline
(`format!("{}\n", constant)`; `data.parse().unwrap()` is the identity on
`String`), and emit no inline instructions. -/
def emitStringBytes (constant : String) (s : EmitState) :
    List String × EmitState :=
  let location := Opcodes.const 8
  let data := constant ++ "\n"
  ([], { s with data := s.data ++ [⟨location, data⟩] })

/-- `Emitter::emit_integer_constant`. -/
def emitIntegerConstant (constant : Int) : List String :=
  [opcodesToString (.const constant)]

/-- `Emitter::emit_constant`. -/
def emitConstant (c : ConstantLiteral) (s : EmitState) :
    List String × EmitState :=
  match c with
  | .integerLiteral n => (emitIntegerConstant n, s)
  | .stringLiteral str => emitStringBytes str s

/-- `Emitter::emit_export`. -/
def emitExport : List String := ["(export \"_start\" (func $main))"]

/-- `Emitter::emit_memory_initializer`. -/
def emitMemoryInitializer : String :=
  "(memory 1) (export \"memory\" (memory 0))"

mutual

/-- `Emitter::emit_instructions`: dispatch on the node variant; only `List`,
`Main` and `Constant` emit anything. -/
def emitInstructions : Node → EmitState → List String × EmitState
  | .list head rest, s => emitFunctionCall head rest s
  | .null, s => ([], s)
  | .main args body, s => emitMainFunction args body s
  | .defNode _ _, s => ([], s)
  | .function _ _ _, s => ([], s)
  | .constant c, s => emitConstant c s
  | .keyword _, s => ([], s)
  | .var _, s => ([], s)
  | .map _, s => ([], s)
  | .vector _, s => ([], s)
  termination_by n _ => 3 * sizeOf n
  decreasing_by all_goals (simp_wf; try omega)

/-- `Emitter::emit_main_function`: one i32 parameter per declared argument,
the emitted body, wrapped in the function envelope. -/
def emitMainFunction (args : List Node) (body : List Node) (s : EmitState) :
    List String × EmitState :=
  let types := (List.range args.length).map (fun index => i32paramToString index)
  let r := emitFunctionBody body s
  (["(func $main "] ++ types ++ r.1 ++ [")"], r.2)
  termination_by 3 * (sizeOf args + sizeOf body) + 1
  decreasing_by all_goals (simp_wf; try omega)

/-- `Emitter::emit_function_body` (the same per-node append loop as
`Emitter::build_body`). -/
def emitFunctionBody : List Node → EmitState → List String × EmitState
  | [], s => ([], s)
  | n :: rest, s =>
    let r := emitInstructions n s
    let r2 := emitFunctionBody rest r.2
    (r.1 ++ r2.1, r2.2)
  termination_by l _ => 3 * sizeOf l
  decreasing_by all_goals (simp_wf; try omega)

/-- `Emitter::emit_function_call`: dispatch on the head keyword; any other
head (or a non-keyword head) emits nothing. -/
def emitFunctionCall (head : Node) (rest : List Node) (s : EmitState) :
    List String × EmitState :=
  match head with
  | .keyword tok =>
    (match tok with
     | .plus => emitAddFunction rest s
     | .minus => emitSubtractFunction rest s
     | .print => emitPrintFunction rest s
     | _ => ([], s))
  | _ => ([], s)
  termination_by 3 * (sizeOf head + sizeOf rest) + 2
  decreasing_by all_goals (simp_wf; try omega)

/-- `Emitter::emit_add_function`: one opening add fragment, every argument's
instructions appended in order, one closing parenthesis at the end. -/
def emitAddFunction (args : List Node) (s : EmitState) :
    List String × EmitState :=
  let r := emitFunctionBody args s
  ([opcodesToString .add] ++ r.1 ++ [")"], r.2)
  termination_by 3 * sizeOf args + 1
  decreasing_by all_goals (simp_wf; try omega)

/-- `Emitter::emit_subtract_function`. -/
def emitSubtractFunction (args : List Node) (s : EmitState) :
    List String × EmitState :=
  let r := emitFunctionBody args s
  ([opcodesToString .subtract] ++ r.1 ++ [")"], r.2)
  termination_by 3 * sizeOf args + 1
  decreasing_by all_goals (simp_wf; try omega)

/-- `Emitter::emit_print_function`: push the `fd_write` import, then emit the
per-argument sequence. -/
def emitPrintFunction (args : List Node) (s : EmitState) :
    List String × EmitState :=
  emitPrintLoop args { s with imports := s.imports ++ [.fdWrite] }
  termination_by 3 * sizeOf args + 1
  decreasing_by all_goals (simp_wf; try omega)

/-- The per-argument loop of `emit_print_function`: build the io-vector with
two fixed stores, call `fd_write` with fixed arguments, then the argument's
own instructions, then `drop`. -/
def emitPrintLoop : List Node → EmitState → List String × EmitState
  | [], s => ([], s)
  | argument :: rest, s =>
    let r := emitInstructions argument s
    let r2 := emitPrintLoop rest r.2
    ([opcodesToString (.store 0 8), opcodesToString (.store 4 12),
      sysCallsToString (.write (.const 1) (.const 0) (.const 1) (.const 20))]
      ++ r.1 ++ [opcodesToString .drop] ++ r2.1, r2.2)
  termination_by l _ => 3 * sizeOf l
  decreasing_by all_goals (simp_wf; try omega)

end

/-- `Emitter::build_body` (textually the same loop as
`emit_function_body`). -/
def buildBody (nodes : List Node) (s : EmitState) : List String × EmitState :=
  emitFunctionBody nodes s

/-- `Vec::join("\n ")` from `get_body_with_header`. -/
def joinWithNewline : List String → String
  | [] => ""
  | [x] => x
  | x :: xs => x ++ "\n " ++ joinWithNewline xs

/-- `Emitter::get_body_with_header`: insert the module marker, the
concatenated imports, the memory declaration and the concatenated data
segments at indices 0–3, append the export list and the closing marker, then
join with `"\n "`. -/
def getBodyWithHeader (s : EmitState) (body : List String) : String :=
  let body1 := body.insertIdx 0 "(module "
  let body2 := body1.insertIdx 1 (String.join (s.imports.map wasiImportsToString))
  let body3 := body2.insertIdx 2 emitMemoryInitializer
  let body4 := body3.insertIdx 3 (String.join (s.data.map opDataToString))
  let body5 := body4 ++ emitExport
  let body6 := body5 ++ [")"]
  joinWithNewline body6

/-- `Emitter::emit` (on a fresh `Emitter::new` state, as main.rs uses it):
build the body first, then assemble the header from the accumulated state. -/
def Emitter.emit (head : List Node) : String :=
  let r := buildBody head Emitter.new
  getBodyWithHeader r.2 r.1

/-- The instruction fragments a node emits, evaluated on a fresh emitter
state.  By `emit_fst_state_indep` the fragments do not depend on the state. -/
def emitFrags (n : Node) : List String :=
  (emitInstructions n Emitter.new).1

/-- Modelled from the spec's words (§4.3, for comparison against the code in
C5): fold the argument fragment lists left-to-right into nested operations,
each opened by `opener` and closed right after its own operand. -/
def specNestedFold (opener : String) : List (List String) → List String
  | [] => []
  | a :: rest => rest.foldl (fun acc x => [opener] ++ acc ++ x ++ [")"]) a

/-- Modelled from the spec's words (§4.3), the right-nested reading of the
same sentence. -/
def specNestedFoldRight (opener : String) : List (List String) → List String
  | [] => []
  | [a] => a
  | a :: rest => [opener] ++ a ++ specNestedFoldRight opener rest ++ [")"]

/-! ## Helper lemmas about the emitter -/

lemma Node.one_le_sizeOf (n : Node) : 1 ≤ sizeOf n := by
  cases n <;> simp_arith

/-- The emitted fragment list of every emitter routine is independent of the
accumulated emitter state (the state only collects imports and data
segments). -/
theorem emit_fst_state_indep :
    ∀ k : Nat,
      (∀ (n : Node) (s s2 : EmitState), sizeOf n ≤ k →
          (emitInstructions n s).1 = (emitInstructions n s2).1) ∧
      (∀ (l : List Node) (s s2 : EmitState), sizeOf l ≤ k →
          (emitFunctionBody l s).1 = (emitFunctionBody l s2).1 ∧
          (emitPrintLoop l s).1 = (emitPrintLoop l s2).1) := by
  intro k
  induction k with
  | zero =>
    refine ⟨fun n s s2 h => absurd h ?_, fun l s s2 h => absurd h ?_⟩
    · have := Node.one_le_sizeOf n; omega
    · cases l <;> simp_arith
  | succ k ih =>
    refine ⟨fun n s s2 h => ?_, fun l s s2 h => ?_⟩
    · cases n with
      | null => simp [emitInstructions]
      | defNode a b => simp [emitInstructions]
      | function a b c => simp [emitInstructions]
      | keyword t => simp [emitInstructions]
      | var a => simp [emitInstructions]
      | map a => simp [emitInstructions]
      | vector a => simp [emitInstructions]
      | constant c => cases c <;> simp [emitInstructions, emitConstant, emitStringBytes]
      | main args body =>
        have hb : sizeOf body ≤ k := by simp_arith at h; omega
        simp only [emitInstructions, emitMainFunction]
        rw [(ih.2 body s s2 hb).1]
      | list head rest =>
        have hr : sizeOf rest ≤ k := by simp_arith at h; omega
        cases head with
        | keyword tok =>
          cases tok <;>
            simp only [emitInstructions, emitFunctionCall, emitAddFunction,
              emitSubtractFunction, emitPrintFunction] <;>
            first
              | rfl
              | rw [(ih.2 rest s s2 hr).1]
              | exact (ih.2 rest _ _ hr).2
        | null => simp [emitInstructions, emitFunctionCall]
        | main a b => simp [emitInstructions, emitFunctionCall]
        | defNode a b => simp [emitInstructions, emitFunctionCall]
        | function a b c => simp [emitInstructions, emitFunctionCall]
        | constant c => simp [emitInstructions, emitFunctionCall]
        | var a => simp [emitInstructions, emitFunctionCall]
        | map a => simp [emitInstructions, emitFunctionCall]
        | vector a => simp [emitInstructions, emitFunctionCall]
        | list a b => simp [emitInstructions, emitFunctionCall]
    · cases l with
      | nil => exact ⟨by simp [emitFunctionBody], by simp [emitPrintLoop]⟩
      | cons n rest =>
        have hn : sizeOf n ≤ k := by simp_arith at h; omega
        have hr : sizeOf rest ≤ k := by simp_arith at h; omega
        constructor
        · simp only [emitFunctionBody]
          rw [ih.1 n s s2 hn, (ih.2 rest _ _ hr).1]
        · simp only [emitPrintLoop]
          rw [ih.1 n s s2 hn, (ih.2 rest _ _ hr).2]

lemma emitInstructions_fst (n : Node) (s : EmitState) :
    (emitInstructions n s).1 = emitFrags n :=
  (emit_fst_state_indep (sizeOf n)).1 n s Emitter.new le_rfl

/-- `emit_function_body` (and `build_body`) emit the concatenation of the
fragments of each node, in order. -/
lemma emitFunctionBody_fst (l : List Node) (s : EmitState) :
    (emitFunctionBody l s).1 = l.flatMap emitFrags := by
  induction l generalizing s with
  | nil => simp [emitFunctionBody, emitFrags, Emitter.new]
  | cons n rest ih =>
    simp only [emitFunctionBody, List.flatMap_cons]
    rw [emitInstructions_fst, ih]

/-- The print loop emits, per argument: the two fixed stores, the fixed
`fd_write` call, the argument's own fragments, then `drop`. -/
lemma emitPrintLoop_fst (l : List Node) (s : EmitState) :
    (emitPrintLoop l s).1 =
      l.flatMap (fun argument =>
        [opcodesToString (.store 0 8), opcodesToString (.store 4 12),
         sysCallsToString (.write (.const 1) (.const 0) (.const 1) (.const 20))]
        ++ emitFrags argument ++ [opcodesToString .drop]) := by
  induction l generalizing s with
  | nil => simp [emitPrintLoop]
  | cons n rest ih =>
    simp only [emitPrintLoop, List.flatMap_cons]
    rw [emitInstructions_fst, ih]
    try simp [List.append_assoc]

/-- `Emitter::emit` assembles exactly these sections in this order, joined
with a newline-plus-space separator. -/
lemma emit_sections (nodes : List Node) :
    Emitter.emit nodes =
      joinWithNewline
        ("(module " ::
         String.join (((buildBody nodes Emitter.new).2.imports).map wasiImportsToString) ::
         emitMemoryInitializer ::
         String.join (((buildBody nodes Emitter.new).2.data).map opDataToString) ::
         ((buildBody nodes Emitter.new).1 ++ emitExport ++ [")"])) := by
  simp [Emitter.emit, getBodyWithHeader, List.insertIdx_zero, List.insertIdx_succ_cons]

lemma joinWithNewline_append_singleton :
    ∀ (l : List String) (x : String), l ≠ [] →
      joinWithNewline (l ++ [x]) = joinWithNewline l ++ "\n " ++ x
  | [a], x, _ => by simp [joinWithNewline]
  | a :: b :: l2, x, _ => by
    have ih := joinWithNewline_append_singleton (b :: l2) x (by simp)
    show a ++ "\n " ++ joinWithNewline ((b :: l2) ++ [x])
        = (a ++ "\n " ++ joinWithNewline (b :: l2)) ++ "\n " ++ x
    rw [ih]
    simp [String.append_assoc]


/-! ## Helper lemmas about the scanner -/

lemma makeToken_ok {s : ScanState} {l : Lexeme} {t : Token} {s2 : ScanState}
    (h : makeToken s l = .ok t s2) : t = ⟨l, s.currentPosition⟩ ∧ s2 = s := by
  unfold makeToken at h
  injection h with h1 h2
  exact ⟨h1.symm, h2.symm⟩

lemma makeStringLoop_some_head :
    ∀ (chars cur : List Char) (pos : Position) (cs cur2 : List Char)
      (pos2 : Position),
      makeStringLoop chars cur pos = some (cs, cur2, pos2) →
      cs.head? = some '"' := by
  intro chars
  induction chars with
  | nil => intro cur pos cs cur2 pos2 h; cases h
  | cons c rest ih =>
    intro cur pos cs cur2 pos2 h
    simp only [makeStringLoop] at h
    by_cases hq : rest.head? = some '"'
    · rw [if_pos hq] at h
      cases h
      exact hq
    · rw [if_neg hq] at h
      exact ih (cur ++ [c]) (updatePos c pos) cs cur2 pos2 h

lemma makeString_pos {s : ScanState} {t : Token} {s2 : ScanState}
    (h : makeString s = .ok t s2) : t.position = s2.currentPosition := by
  simp only [makeString] at h
  cases hm : makeStringLoop s.chars s.currentString.dropLast s.currentPosition with
  | none => rw [hm] at h; cases h
  | some r =>
    obtain ⟨cs, cur, pos⟩ := r
    rw [hm] at h
    have h' : makeToken ⟨cs.tail, cur, pos⟩ (.stringLiteral (String.mk cur)) = .ok t s2 := h
    obtain ⟨rfl, rfl⟩ := makeToken_ok h'
    rfl

lemma makeDigit_pos {s : ScanState} {t : Token} {s2 : ScanState}
    (h : makeDigit s = .ok t s2) : t.position = s2.currentPosition := by
  simp only [makeDigit] at h
  cases hm : makeDigitLoop s.chars s.currentString s.currentPosition 1 with
  | mk cs r =>
    obtain ⟨cur, pos⟩ := r
    rw [hm] at h
    cases hp : parseI64 cur with
    | none =>
      rw [hp] at h; cases h
    | some n =>
      rw [hp] at h
      have h' : makeToken ⟨cs, cur, pos⟩ (.numberLiteral n) = .ok t s2 := h
      obtain ⟨rfl, rfl⟩ := makeToken_ok h'
      rfl

lemma makeIdentifier_pos {s : ScanState} {t : Token} {s2 : ScanState}
    (h : makeIdentifier s = .ok t s2) : t.position = s2.currentPosition := by
  have h' : makeToken (scanWord s) (checkIdentifierType (scanWord s).currentString)
      = .ok t s2 := h
  obtain ⟨rfl, rfl⟩ := makeToken_ok h'
  rfl

lemma makeMapKey_pos {s : ScanState} {t : Token} {s2 : ScanState}
    (h : makeMapKey s = .ok t s2) : t.position = s2.currentPosition := by
  have h' : makeToken (scanWord { s with currentString := s.currentString.dropLast })
      (.mapKey (String.mk (scanWord { s with currentString := s.currentString.dropLast }).currentString))
      = .ok t s2 := h
  obtain ⟨rfl, rfl⟩ := makeToken_ok h'
  rfl

set_option maxHeartbeats 2000000 in
lemma scanTokenChar_pos {c : Char} {s1 : ScanState} {t : Token} {s2 : ScanState}
    (h : scanTokenChar c s1 = .ok t s2) (hc : t.lexeme ≠ .comment) :
    t.position = s2.currentPosition := by
  unfold scanTokenChar at h
  repeat' split at h
  all_goals
    first
      | (obtain ⟨rfl, rfl⟩ := makeToken_ok h; rfl)
      | exact makeString_pos h
      | exact makeDigit_pos h
      | exact makeIdentifier_pos h
      | exact makeMapKey_pos h
      | cases h
  all_goals exact absurd rfl hc

/-! ## The claims -/

/-- C1 (code_bug): the claim — and the repository's own `parse_list` test —
says `Parser::parse` on `(+ 1 2)` succeeds with the single List node
`(+ , [Constant 1, Constant 2])`.  The scanner does produce the expected
token stream and `parse_token_stream` does build exactly that node consuming
every token, but the top-level loop of `Parser::parse` waits for an `EOF`
token that `scan_into_peekable` has filtered out of the stream, so `parse`
returns `Err(UnexpectedEndOfFile)` on this (and every) input. -/
theorem claim1_parse_plus_one_two :
    Parser.parse "(+ 1 2)" = .err .unexpectedEndOfFile ∧
    scanIntoPeekable "(+ 1 2)" =
      .ok [⟨.leftParen, ⟨1, 2⟩⟩, ⟨.plus, ⟨1, 3⟩⟩, ⟨.numberLiteral 1, ⟨1, 5⟩⟩,
           ⟨.numberLiteral 2, ⟨1, 7⟩⟩, ⟨.rightParen, ⟨1, 8⟩⟩] ∧
    parseTokenStream 50
      [⟨.leftParen, ⟨1, 2⟩⟩, ⟨.plus, ⟨1, 3⟩⟩, ⟨.numberLiteral 1, ⟨1, 5⟩⟩,
       ⟨.numberLiteral 2, ⟨1, 7⟩⟩, ⟨.rightParen, ⟨1, 8⟩⟩] =
      .ok (.list (.keyword .plus)
        [.constant (.integerLiteral 1), .constant (.integerLiteral 2)]) [] :=
  ⟨rfl, rfl, rfl⟩

/-- C2 (code_bug): the claim says the inputs `(` and `()` yield the explicit
error `UnexpectedEndOfFile`, not a panic.  In the code, `parse_seq_list`
exits its loop with an empty accumulated list and then calls
`list.remove(0)`, which panics on an empty `Vec`. -/
theorem claim2_unterminated_list_panics :
    Parser.parse "(" = .panicked ∧ Parser.parse "()" = .panicked :=
  ⟨rfl, rfl⟩

/-- C3 (code_bug): the claim says scanning always terminates with a token
sequence or an `UnknownCharacter` error.  On a line comment not terminated by
a newline (`//`), `advance_until_newline` loops forever (`advance` keeps
returning `None`); on an unterminated string literal (`"`), the loop in
`make_string` does the same. -/
theorem claim3_scanner_divergence :
    scanIntoPeekable "//" = .diverged ∧ scanIntoPeekable "\"" = .diverged :=
  ⟨rfl, rfl⟩

/-- C4 counterexample: parsing the claim's source text
`(defn main (print "Hello world"))` does not reach the emitter at all:
`parse_function_definition` requires a `[` parameter vector after the
function name, and the `(` of `(print …)` (at line 1, column 13, stored as
the after-token position) is rejected with `UnexpectedToken`. -/
theorem claim4_counterexample :
    Parser.parse "(defn main (print \"Hello world\"))" =
      .err (.unexpectedToken ⟨1, 13⟩ .leftParen) :=
  rfl

set_option maxRecDepth 10000 in
/-- C4 (corrected): with the parameter vector the grammar requires,
`(defn main [] (print "Hello world"))` scans to the expected token stream,
its single top-level form parses to the Main node (the top-level driver
`Parser::parse` itself still fails with `UnexpectedEndOfFile`; see C1), and
emitting that node yields a module text whose sections contain exactly one
`fd_write` import declaration, the memory declaration, one data segment with
bytes `"Hello world"` plus the trailing newline, a function body that calls
the imported `$fd_write`, and the export of `$main` under `"_start"`. -/
theorem claim4_amended_hello_world :
    scanIntoPeekable "(defn main [] (print \"Hello world\"))" =
      .ok [⟨.leftParen, ⟨1, 2⟩⟩, ⟨.defn, ⟨1, 6⟩⟩, ⟨.main, ⟨1, 11⟩⟩,
           ⟨.leftBracket, ⟨1, 13⟩⟩, ⟨.rightBracket, ⟨1, 14⟩⟩,
           ⟨.leftParen, ⟨1, 16⟩⟩, ⟨.print, ⟨1, 21⟩⟩,
           ⟨.stringLiteral "Hello world", ⟨1, 34⟩⟩,
           ⟨.rightParen, ⟨1, 35⟩⟩, ⟨.rightParen, ⟨1, 36⟩⟩] ∧
    parseTokenStream 50
      [⟨.leftParen, ⟨1, 2⟩⟩, ⟨.defn, ⟨1, 6⟩⟩, ⟨.main, ⟨1, 11⟩⟩,
       ⟨.leftBracket, ⟨1, 13⟩⟩, ⟨.rightBracket, ⟨1, 14⟩⟩,
       ⟨.leftParen, ⟨1, 16⟩⟩, ⟨.print, ⟨1, 21⟩⟩,
       ⟨.stringLiteral "Hello world", ⟨1, 34⟩⟩,
       ⟨.rightParen, ⟨1, 35⟩⟩, ⟨.rightParen, ⟨1, 36⟩⟩] =
      .ok (.main []
        [.list (.keyword .print) [.constant (.stringLiteral "Hello world")]]) [] ∧
    (buildBody [.main [] [.list (.keyword .print)
        [.constant (.stringLiteral "Hello world")]]] Emitter.new).2 =
      ⟨[.fdWrite], [⟨.const 8, "Hello world\n"⟩]⟩ ∧
    Emitter.emit [.main [] [.list (.keyword .print)
        [.constant (.stringLiteral "Hello world")]]] =
      joinWithNewline
        ["(module ",
         "(import \"wasi_unstable\" \"fd_write\" (func $fd_write (param i32 i32 i32 i32) (result i32)))",
         "(memory 1) (export \"memory\" (memory 0))",
         "(data (i32.const 8) \"Hello world\\n\")",
         "(func $main ",
         "(i32.store (i32.const 0) (i32.const 8))",
         "(i32.store (i32.const 4) (i32.const 12))",
         "(call $fd_write (i32.const 1) (i32.const 0) (i32.const 1) (i32.const 20))",
         "drop",
         ")",
         "(export \"_start\" (func $main))",
         ")"] := by
  refine ⟨rfl, rfl, ?_, ?_⟩
  · simp [buildBody, emitFunctionBody, emitInstructions, emitMainFunction,
      emitFunctionCall, emitPrintFunction, emitPrintLoop, emitConstant,
      emitStringBytes, Emitter.new]
  · simp [Emitter.emit, buildBody, emitFunctionBody, emitInstructions,
      emitMainFunction, emitFunctionCall, emitPrintFunction, emitPrintLoop,
      emitConstant, emitStringBytes, Emitter.new, getBodyWithHeader,
      wasiImportsToString, opDataToString, opcodesToString, sysCallsToString,
      rustDebugString, rustDebugEscapeChar, emitMemoryInitializer, emitExport,
      i32resultString, String.join]
    decide

/-- C5 counterexample: on the three-argument list `(+ 1 2 3)` the emitter
produces a single flat `(i32.add` operation with one closing delimiter after
the last argument — not the claimed left-to-right fold into nested add
operations with each operation's closing delimiter right after its own
operand (in either nesting direction, that fold contains two `(i32.add`
openers and two closers). -/
theorem claim5_counterexample :
    (emitAddFunction [.constant (.integerLiteral 1), .constant (.integerLiteral 2),
        .constant (.integerLiteral 3)] Emitter.new).1 =
      ["(i32.add", "(i32.const 1)", "(i32.const 2)", "(i32.const 3)", ")"] ∧
    specNestedFold (opcodesToString .add)
        [["(i32.const 1)"], ["(i32.const 2)"], ["(i32.const 3)"]] =
      ["(i32.add", "(i32.add", "(i32.const 1)", "(i32.const 2)", ")",
       "(i32.const 3)", ")"] ∧
    specNestedFoldRight (opcodesToString .add)
        [["(i32.const 1)"], ["(i32.const 2)"], ["(i32.const 3)"]] =
      ["(i32.add", "(i32.const 1)", "(i32.add", "(i32.const 2)",
       "(i32.const 3)", ")", ")"] ∧
    (["(i32.add", "(i32.const 1)", "(i32.const 2)", "(i32.const 3)", ")"]
        : List String) ≠
      ["(i32.add", "(i32.add", "(i32.const 1)", "(i32.const 2)", ")",
       "(i32.const 3)", ")"] ∧
    (["(i32.add", "(i32.const 1)", "(i32.const 2)", "(i32.const 3)", ")"]
        : List String) ≠
      ["(i32.add", "(i32.const 1)", "(i32.add", "(i32.const 2)",
       "(i32.const 3)", ")", ")"] := by
  refine ⟨?_, by decide, by decide, by decide, by decide⟩
  simp [emitAddFunction, emitFunctionBody, emitInstructions, emitConstant,
    emitIntegerConstant, opcodesToString, Emitter.new]
  decide

/-- C5 (corrected): for every call-shaped List headed by the `+`
(respectively `-`) Keyword, the emitter emits one single flat add
(respectively subtract) operation: the opening fragment, then all the
arguments' own instruction fragments left-to-right, then exactly one closing
delimiter after the last argument.  Nested operations arise only from
arguments that are themselves lists. -/
theorem claim5_amended_flat_fold (rest : List Node) (s : EmitState) :
    (emitFunctionCall (.keyword .plus) rest s).1 =
      [opcodesToString .add] ++ rest.flatMap emitFrags ++ [")"] ∧
    (emitFunctionCall (.keyword .minus) rest s).1 =
      [opcodesToString .subtract] ++ rest.flatMap emitFrags ++ [")"] := by
  constructor <;>
    · simp only [emitFunctionCall, emitAddFunction, emitSubtractFunction]
      rw [emitFunctionBody_fst]

/-- C6: for every call-shaped List headed by the `print` Keyword, the emitter
emits, for each argument in order: the two fixed-offset stores building the
io-vector record (value 8 at address 0, value 12 at address 4), then the
`fd_write` call with the fixed arguments (file descriptor 1, io-vector
address 0, vector count 1, bytes-written address 20), then the argument's own
instruction fragments, then a `drop`. -/
theorem claim6_print_emission (rest : List Node) (s : EmitState) :
    (emitFunctionCall (.keyword .print) rest s).1 =
      rest.flatMap (fun argument =>
        [opcodesToString (.store 0 8), opcodesToString (.store 4 12),
         sysCallsToString (.write (.const 1) (.const 0) (.const 1) (.const 20))]
        ++ emitFrags argument ++ [opcodesToString .drop]) := by
  simp only [emitFunctionCall, emitPrintFunction]
  exact emitPrintLoop_fst rest _

/-- C7: for every top-level node sequence, the emitted module text is exactly
the newline-joined (separator `"\n "`) sequence of: the open-module marker,
the concatenated accumulated import declarations, the memory declaration (one
page, exported), the concatenated accumulated data segments, the walked body
output, the export list, and the close-module marker, in this order. -/
theorem claim7_module_section_order (nodes : List Node) :
    Emitter.emit nodes =
      joinWithNewline
        ("(module " ::
         String.join (((buildBody nodes Emitter.new).2.imports).map wasiImportsToString) ::
         emitMemoryInitializer ::
         String.join (((buildBody nodes Emitter.new).2.data).map opDataToString) ::
         ((buildBody nodes Emitter.new).1 ++ emitExport ++ [")"])) :=
  emit_sections nodes

/-- C8 counterexample: the first (and only) token of the source `(` starts at
line 1, column 1 (`Position::reset`), but the token stored position is
`⟨1, 2⟩` — `make_token` records `current_position` after the lexeme was
consumed, not where the token started. -/
theorem claim8_counterexample :
    scanIntoPeekable "(" = .ok [⟨.leftParen, ⟨1, 2⟩⟩] ∧
    (⟨1, 2⟩ : Position) ≠ Position.reset :=
  ⟨rfl, by decide⟩

/-- C8 (corrected): for every token the scanner produces (comments excepted,
whose token is built before `advance_until_newline` runs), the stored
Position is the scanner's `current_position` at the moment the token is
completed — i.e. the position reached after consuming the token's characters
via `advance` — not the position of the lexeme's first character. -/
theorem claim8_amended_token_end_position :
    ∀ (s : ScanState) (t : Token) (s2 : ScanState),
      scanToken s = .ok t s2 → t.lexeme ≠ .comment →
      t.position = s2.currentPosition := by
  intro s t s2 h hc
  obtain ⟨cs, cur, pos⟩ := s
  cases cs with
  | nil =>
    simp only [scanToken, advance] at h
    obtain ⟨rfl, rfl⟩ := makeToken_ok h
    rfl
  | cons c rest =>
    simp only [scanToken, advance] at h
    exact scanTokenChar_pos h hc

/-- C8 witness: the amended theorem applied to scanning the source `(`. -/
theorem claim8_witness :
    (⟨.leftParen, ⟨1, 2⟩⟩ : Token).position =
      (⟨[], ['('], ⟨1, 2⟩⟩ : ScanState).currentPosition :=
  claim8_amended_token_end_position (Scanner.new "(") ⟨.leftParen, ⟨1, 2⟩⟩
    ⟨[], ['('], ⟨1, 2⟩⟩ (by decide) (by decide)

/-- C9 counterexample: scanning `==` consumes both characters, but the
resulting state's column is 2, not 3 — the second character of the
two-character operator is consumed by `peek_match` via a bare
`source.next()`, which does not advance the position.  Likewise scanning the
string literal `"ab"` consumes all four characters starting at column 1, yet
the final column is 4, not 5 — the closing delimiter is skipped by a bare
`source.next()` in `make_string` without advancing the position. -/
theorem claim9_counterexample :
    scanToken (Scanner.new "==") =
      .ok ⟨.doubleEqual, ⟨1, 2⟩⟩ ⟨[], ['='], ⟨1, 2⟩⟩ ∧
    (⟨1, 2⟩ : Position) ≠ ⟨1, 3⟩ ∧
    scanToken (Scanner.new "\"ab\"") =
      .ok ⟨.stringLiteral "ab", ⟨1, 4⟩⟩ ⟨[], ['a', 'b'], ⟨1, 4⟩⟩ ∧
    (⟨1, 4⟩ : Position) ≠ ⟨1, 5⟩ :=
  ⟨rfl, by decide, rfl, by decide⟩

/-- C9 (corrected): every character consumed through `advance` updates the
position before anything further is scanned — a non-newline increments the
column, a newline resets the column to one and increments the line — but a
character consumed by `peek_match` (the second character of a two-character
operator, or the space after a bare colon) leaves both the position and
`current_string` unchanged, and so does the closing string-literal
delimiter: when `make_string` succeeds, the character its loop stopped at is
the closing quote, and the returned state merely drops it from the source
while keeping the loop's final position and accumulated `current_string`
untouched. -/
theorem claim9_amended_position_update :
    (∀ (s : ScanState) (c : Char) (s2 : ScanState),
       advance s = (some c, s2) →
       s2.currentPosition = updatePos c s.currentPosition ∧
       (c = '\n' → s2.currentPosition = s.currentPosition.nextLine) ∧
       (c ≠ '\n' → s2.currentPosition = s.currentPosition.incrementColumn)) ∧
    (∀ (ch : Char) (s : ScanState) (b : Bool) (s2 : ScanState),
       peekMatch ch s = (b, s2) →
       s2.currentPosition = s.currentPosition ∧
       s2.currentString = s.currentString) ∧
    (∀ (s : ScanState) (t : Token) (s2 : ScanState) (cs cur : List Char)
       (pos : Position),
       makeStringLoop s.chars s.currentString.dropLast s.currentPosition =
         some (cs, cur, pos) →
       makeString s = .ok t s2 →
       cs.head? = some '"' ∧ s2.chars = cs.tail ∧
       s2.currentPosition = pos ∧ s2.currentString = cur ∧
       t.position = pos) := by
  refine ⟨?_, ?_, ?_⟩
  · intro s c s2 h
    obtain ⟨cs, cur, pos⟩ := s
    cases cs with
    | nil => cases h
    | cons c0 rest =>
      simp only [advance] at h
      obtain ⟨h1, h2⟩ := Prod.mk.injEq .. ▸ h
      obtain rfl := Option.some.injEq .. ▸ h1
      subst h2
      refine ⟨rfl, fun hn => ?_, fun hn => ?_⟩
      · simp [updatePos, hn]
      · simp [updatePos, hn]
  · intro ch s b s2 h
    simp only [peekMatch] at h
    split_ifs at h <;>
      obtain ⟨h1, h2⟩ := Prod.mk.injEq .. ▸ h <;> subst h2 <;> exact ⟨rfl, rfl⟩
  · intro s t s2 cs cur pos hloop hs
    simp only [makeString] at hs
    rw [hloop] at hs
    have hs' : makeToken ⟨cs.tail, cur, pos⟩ (.stringLiteral (String.mk cur))
        = .ok t s2 := hs
    obtain ⟨rfl, rfl⟩ := makeToken_ok hs'
    exact ⟨makeStringLoop_some_head _ _ _ _ _ _ hloop, rfl, rfl, rfl, rfl⟩

/-- C9 witness: the amended theorem applied to an `advance` consuming `'a'`,
to a `peek_match` consuming `'='`, and to the `make_string` call arising
while scanning the literal `"ab"` (its loop stops at the closing quote with
position ⟨1, 4⟩; the returned state drops that quote and keeps the
position). -/
theorem claim9_witness :
    ((⟨[], ['a'], ⟨1, 2⟩⟩ : ScanState).currentPosition =
        updatePos 'a' (⟨['a'], [], ⟨1, 1⟩⟩ : ScanState).currentPosition) ∧
    ((⟨[], [], ⟨1, 1⟩⟩ : ScanState).currentPosition =
        (⟨['='], [], ⟨1, 1⟩⟩ : ScanState).currentPosition) ∧
    ((['"'] : List Char).head? = some '"' ∧
     (⟨[], ['a', 'b'], ⟨1, 4⟩⟩ : ScanState).chars = (['"'] : List Char).tail ∧
     (⟨[], ['a', 'b'], ⟨1, 4⟩⟩ : ScanState).currentPosition = ⟨1, 4⟩ ∧
     (⟨[], ['a', 'b'], ⟨1, 4⟩⟩ : ScanState).currentString = ['a', 'b'] ∧
     (⟨.stringLiteral "ab", ⟨1, 4⟩⟩ : Token).position = ⟨1, 4⟩) :=
  ⟨(claim9_amended_position_update.1 ⟨['a'], [], ⟨1, 1⟩⟩ 'a' ⟨[], ['a'], ⟨1, 2⟩⟩
      (by decide)).1,
   (claim9_amended_position_update.2.1 '=' ⟨['='], [], ⟨1, 1⟩⟩ true ⟨[], [], ⟨1, 1⟩⟩
      (by decide)).1,
   claim9_amended_position_update.2.2 ⟨['a', 'b', '"'], ['"'], ⟨1, 2⟩⟩
     ⟨.stringLiteral "ab", ⟨1, 4⟩⟩ ⟨[], ['a', 'b'], ⟨1, 4⟩⟩ ['"'] ['a', 'b'] ⟨1, 4⟩
     (by decide) (by decide)⟩

/-- C10: for every input node sequence — in particular ones containing no
Main node, when no `$main` function is emitted into the body — the emitted
module text contains the export declaration `(export "_start" (func $main))`
as a substring. -/
theorem claim10_export_always_present (nodes : List Node) :
    ∃ pre post, Emitter.emit nodes =
      pre ++ "(export \"_start\" (func $main))" ++ post := by
  have h := emit_sections nodes
  refine ⟨joinWithNewline
      ("(module " ::
       String.join (((buildBody nodes Emitter.new).2.imports).map wasiImportsToString) ::
       emitMemoryInitializer ::
       String.join (((buildBody nodes Emitter.new).2.data).map opDataToString) ::
       (buildBody nodes Emitter.new).1) ++ "\n ",
    "\n " ++ ")", ?_⟩
  rw [h]
  have h1 :
      ("(module " ::
       String.join (((buildBody nodes Emitter.new).2.imports).map wasiImportsToString) ::
       emitMemoryInitializer ::
       String.join (((buildBody nodes Emitter.new).2.data).map opDataToString) ::
       ((buildBody nodes Emitter.new).1 ++ emitExport ++ [")"])) =
      (("(module " ::
        String.join (((buildBody nodes Emitter.new).2.imports).map wasiImportsToString) ::
        emitMemoryInitializer ::
        String.join (((buildBody nodes Emitter.new).2.data).map opDataToString) ::
        (buildBody nodes Emitter.new).1) ++ ["(export \"_start\" (func $main))"]) ++ [")"] := by
    simp [emitExport]
  rw [h1, joinWithNewline_append_singleton _ _ (by simp),
    joinWithNewline_append_singleton _ _ (by simp)]
  simp [String.append_assoc]

end Wasl

-- sanity examples (scanner)
example : Wasl.scanIntoPeekable "123" =
    .ok [⟨.numberLiteral 123, ⟨1, 4⟩⟩] := by decide

example : Wasl.scanIntoPeekable "(+ 1 2)" =
    .ok [⟨.leftParen, ⟨1, 2⟩⟩, ⟨.plus, ⟨1, 3⟩⟩, ⟨.numberLiteral 1, ⟨1, 5⟩⟩,
         ⟨.numberLiteral 2, ⟨1, 7⟩⟩, ⟨.rightParen, ⟨1, 8⟩⟩] := by decide

-- sanity examples (parser)
example : Wasl.Parser.parse "(+ 1 2)" = .err .unexpectedEndOfFile := by rfl
example : Wasl.Parser.parse "(" = .panicked := by rfl
example : Wasl.Parser.parse "()" = .panicked := by rfl
example : Wasl.parseTokenStream 50
    [⟨.leftParen, ⟨1, 2⟩⟩, ⟨.plus, ⟨1, 3⟩⟩, ⟨.numberLiteral 1, ⟨1, 5⟩⟩,
     ⟨.numberLiteral 2, ⟨1, 7⟩⟩, ⟨.rightParen, ⟨1, 8⟩⟩] =
    .ok (.list (.keyword .plus)
      [.constant (.integerLiteral 1), .constant (.integerLiteral 2)]) [] := by rfl

